import Mathlib

/-!
Verification development for the LhyMicro-GL driver core
(`LhystudiosDevice.py`): distance-token encoding, CRC, the plotter
group/ungroup transducers, the interpreter's move commands, and the
controller packetiser (`process_queue`).

Bytes are modelled as `Nat` values (the numeric value of the byte); byte
strings as `List Nat`.  Python generators are modelled eagerly: a generator
that can `raise` becomes a function into `Except String`.  Python floats
that hold power/pulse accumulators are modelled as rationals.
-/

namespace Lhystudios

deriving instance DecidableEq for Except

/-- Status codes from `LhystudiosDevice.py`. -/
def STATUS_BAD_STATE : Nat := 204
def STATUS_OK : Nat := 206
def STATUS_PACKET_REJECTED : Nat := 207
def STATUS_FINISH : Nat := 236
def STATUS_BUSY : Nat := 238
def STATUS_POWER : Nat := 239

def DIRECTION_FLAG_LEFT : Nat := 1
def DIRECTION_FLAG_TOP : Nat := 2
def DIRECTION_FLAG_X : Nat := 4
def DIRECTION_FLAG_Y : Nat := 8

def STATE_ABORT : Int := -1
def STATE_DEFAULT : Int := 0
def STATE_CONCAT : Int := 1
def STATE_COMPACT : Int := 2

/-- `distance_lookup` from `LhystudiosDevice.py`: index 0 is the empty
string, 1..25 are `a`..`y`, 26..51 are `|a`..`|z`. -/
def distance_lookup : List (List Nat) :=
  [[],
   [97], [98], [99], [100], [101], [102], [103], [104], [105], [106], [107], [108], [109],
   [110], [111], [112], [113], [114], [115], [116], [117], [118], [119], [120], [121],
   [124, 97], [124, 98], [124, 99], [124, 100], [124, 101], [124, 102], [124, 103],
   [124, 104], [124, 105], [124, 106], [124, 107], [124, 108], [124, 109],
   [124, 110], [124, 111], [124, 112], [124, 113], [124, 114], [124, 115], [124, 116],
   [124, 117], [124, 118], [124, 119], [124, 120], [124, 121], [124, 122]]

/-- The bytes of `b'%03d' % v` for `v < 1000`: three zero-padded decimal
digits (`48` is ASCII `'0'`). -/
def threeDigits (v : Nat) : List Nat :=
  [48 + v / 100, 48 + (v / 10) % 10, 48 + v % 10]

/-- Round `num / den` (a positive rational) to the nearest integer with
ties to even — the rounding step of IEEE-754 division. -/
def roundHalfEven (num den : Nat) : Nat :=
  let q := num / den
  let r := num % den
  if 2 * r < den then q
  else if 2 * r > den then q + 1
  else if q % 2 = 0 then q else q + 1

/-- Fuel-bounded base-2 logarithm (structural recursion, so the kernel
can evaluate it): for `n ≥ 1` and fuel at least the bit length of `n`,
this is `floor(log2 n)`. -/
def log2Fuel : Nat → Nat → Nat
  | 0, _ => 0
  | fuel + 1, n => if n ≥ 2 then log2Fuel fuel (n / 2) + 1 else 0

/-- `floor(log2 n)` for `n ≥ 1`; fuel 1100 covers every value below the
IEEE-754 double overflow range (`2^1024`). -/
def binadeLog (n : Nat) : Nat := log2Fuel 1100 n

/-- Python 3's `int(v / d)` for nonnegative `v` and positive `d`: `/` is
float true-division, producing the correctly rounded IEEE-754 double of
`v / d` (53 significant bits, round to nearest, ties to even), which
`int` then truncates toward zero.  Exact integer reformulation: locate
the binade `[2^(e-1), 2^e)` of `v / d`, round the 53-bit significand
half-to-even, and truncate.  (Valid below the double overflow range; the
interpreter never reaches it on any physically meaningful distance.) -/
def pyIntDivFloat (v d : Nat) : Nat :=
  if v / d = 0 then
    -- v/d < 1: truncates to 0 unless v/d rounds up to exactly 1.0
    if 2 ^ 54 * v ≥ (2 ^ 54 - 1) * d then 1 else 0
  else
    let e := binadeLog (v / d) + 1
    if e ≤ 53 then
      roundHalfEven (v * 2 ^ (53 - e)) d / 2 ^ (53 - e)
    else
      roundHalfEven v (d * 2 ^ (e - 53)) * 2 ^ (e - 53)

/-- `lhymicro_distance` from `LhystudiosDevice.py`.  The `z` count is
`int(v / 255)` — Python 3 float true-division then truncation, modelled
exactly by `pyIntDivFloat` — while `v %= 255` is exact integer modulo. -/
def lhymicro_distance (v : Nat) : List Nat :=
  let p : List Nat × Nat :=
    if v ≥ 255 then (List.replicate (pyIntDivFloat v 255) 122, v % 255) else ([], v)
  if p.2 ≥ 52 then p.1 ++ threeDigits p.2
  else p.1 ++ distance_lookup.getD p.2 []

/-- `crc_table` from `LhystudiosDevice.py` (32-entry nibble lookup). -/
def crc_table : List Nat :=
  [0x00, 0x5E, 0xBC, 0xE2, 0x61, 0x3F, 0xDD, 0x83,
   0xC2, 0x9C, 0x7E, 0x20, 0xA3, 0xFD, 0x1F, 0x41,
   0x00, 0x9D, 0x23, 0xBE, 0x46, 0xDB, 0x65, 0xF8,
   0x8C, 0x11, 0xAF, 0x32, 0xCA, 0x57, 0xE9, 0x74]

/-- One iteration of the CRC loop body from `onewire_crc_lookup`. -/
def crcStep (crc b : Nat) : Nat :=
  let c := b ^^^ crc
  (crc_table.getD (c &&& 0x0f) 0) ^^^ (crc_table.getD (16 + ((c >>> 4) &&& 0x0f)) 0)

/-- `onewire_crc_lookup` from `LhystudiosDevice.py`: folds `crcStep` over
`line[i]` for `i in range(0, 30)`. -/
def onewire_crc_lookup (line : List Nat) : Nat :=
  (List.range 30).foldl (fun crc i => crcStep crc (line.getD i 0)) 0

/-- A plot event `(x, y, on)` as produced by the plotter generators. -/
abbrev Plot := Int × Int × Nat

/-- The PPI-modulation fields of the interpreter that `group_plots`
reads (`pulse_modulation`, `group_modulation`, `power`).  `power` and the
`pulse_total` accumulator are modelled as rationals. -/
structure GroupCfg where
  pulse_modulation : Bool
  group_modulation : Bool
  power : ℚ

/-- The per-event `on` computation inside `group_plots`: updates
`pulse_total` and chooses the emitted `on` value. -/
def computeOn (cfg : GroupCfg) (pulse_total : ℚ) (last_on : Nat) (plot_on : Nat) :
    Nat × ℚ :=
  if cfg.pulse_modulation then
    let pt := pulse_total + cfg.power * plot_on
    if cfg.group_modulation ∧ last_on = 1 then
      if pt > 0 then (1, pt - 1000) else (0, pt)
    else
      if pt ≥ 1000 then (1, pt - 1000) else (0, pt)
  else (plot_on, pulse_total)

/-- The loop of `group_plots` after initialisation, modelled eagerly.
State: `last_x, last_y, last_on` (the last consumed event), `dx, dy`
(the current run direction), `pt` (`pulse_total`).  The generator's
`raise ValueError` becomes `Except.error`. -/
def groupPlotsAux (cfg : GroupCfg) (last_x last_y : Int) (last_on : Nat)
    (dx dy : Int) (pt : ℚ) : List Plot → Except String (List Plot)
  | [] => .ok [(last_x, last_y, last_on)]
  | (x, y, plot_on) :: rest =>
    let q := computeOn cfg pt last_on plot_on
    if x = last_x + dx ∧ y = last_y + dy ∧ q.1 = last_on then
      groupPlotsAux cfg x y last_on dx dy q.2 rest
    else
      let ndx := x - last_x
      let ndy := y - last_y
      if ndx.natAbs > 1 ∨ ndy.natAbs > 1 then
        .error "dx or dy exceeds 1"
      else
        (groupPlotsAux cfg x y q.1 ndx ndy q.2 rest).map
          (fun out => (last_x, last_y, last_on) :: out)

/-- `group_plots` from `LhystudiosDevice.py`: groups single-step plots into
runs, applying PPI modulation; `pt0` is the incoming `pulse_total`. -/
def group_plots (cfg : GroupCfg) (pt0 : ℚ) (start_x start_y : Int)
    (generate : List Plot) : Except String (List Plot) :=
  groupPlotsAux cfg start_x start_y 0 0 0 pt0 generate

/-- Python-style sign used in `ungroup_plots` (`1 / -1 / 0` by comparison). -/
def pySign (next cur : Int) : Int :=
  if next > cur then 1 else if next < cur then -1 else 0

/-- The unit steps emitted by the `while` loop of `ungroup_plots`:
`n` iterations starting at `(cx, cy)`, stepping by `(dx, dy)`, each step
carrying `on`. -/
def unitSteps (cx cy dx dy : Int) (onv : Nat) : Nat → List Plot
  | 0 => []
  | n + 1 => (cx + dx, cy + dy, onv) :: unitSteps (cx + dx) (cy + dy) dx dy onv n

/-- The loop of `ungroup_plots` after the first event fixed `current_x/y`.
The `while current != next` loop terminates in `max |Δx| |Δy|` steps
whenever the diagonal check passes, which is the fuel used here. -/
def ungroupAux (cx cy : Int) : List Plot → Except String (List Plot)
  | [] => .ok []
  | (nx, ny, onv) :: rest =>
    let dx := pySign nx cx
    let dy := pySign ny cy
    let tdx := nx - cx
    let tdy := ny - cy
    if tdy * dx ≠ tdx * dy then
      .error "Must be uniformly diagonal or orthogonal"
    else
      (ungroupAux nx ny rest).map
        (fun out => unitSteps cx cy dx dy onv (max tdx.natAbs tdy.natAbs) ++ out)

/-- `ungroup_plots` from `LhystudiosDevice.py`: the first event is yielded
as-is and seeds `current_x/current_y`. -/
def ungroup_plots : List Plot → Except String (List Plot)
  | [] => .ok []
  | (x, y, onv) :: rest =>
    (ungroupAux x y rest).map (fun out => (x, y, onv) :: out)

/-- Interpreter state (`LhymicroInterpreter` plus the `device.current_x/y`
coordinates it mutates).  `pipe` is the byte stream written so far via
`self.pipe.write`; `istate` is the Python `self.state` mode value. -/
structure IState where
  istate : Int
  properties : Nat
  is_relative : Bool
  is_on : Bool
  CODE_RIGHT : List Nat
  CODE_LEFT : List Nat
  CODE_TOP : List Nat
  CODE_BOTTOM : List Nat
  CODE_ANGLE : List Nat
  CODE_ON : List Nat
  CODE_OFF : List Nat
  current_x : Int
  current_y : Int
  min_x : Int
  min_y : Int
  max_x : Int
  max_y : Int
  autolock : Bool
  pulse_total : ℚ
  pulse_modulation : Bool
  group_modulation : Bool
  power : ℚ
  pipe : List Nat
deriving Repr, DecidableEq

/-- `self.pipe.write(bytes)`: append to the outgoing stream. -/
def iwrite (s : IState) (bs : List Nat) : IState := {s with pipe := s.pipe ++ bs}

/-- `set_prop`: `self.properties |= mask`. -/
def set_prop (s : IState) (mask : Nat) : IState :=
  {s with properties := s.properties ||| mask}

/-- `unset_prop`: `self.properties &= ~mask`, i.e. clear the bits of
`mask` (subtracting the common bits is bitwise AND with the complement). -/
def unset_prop (s : IState) (mask : Nat) : IState :=
  {s with properties := s.properties - (s.properties &&& mask)}

/-- `is_prop`: `bool(self.properties & mask)`. -/
def is_prop (s : IState) (mask : Nat) : Bool :=
  s.properties &&& mask ≠ 0

/-- `check_bounds`: fold the current position into the min/max envelope. -/
def check_bounds (s : IState) : IState :=
  {s with min_x := min s.min_x s.current_x, min_y := min s.min_y s.current_y,
          max_x := max s.max_x s.current_x, max_y := max s.max_y s.current_y}

/-- `set_left`: X engaged, Y disengaged, LEFT flagged. -/
def set_left (s : IState) : IState :=
  unset_prop (set_prop (set_prop s DIRECTION_FLAG_X) DIRECTION_FLAG_LEFT) DIRECTION_FLAG_Y

/-- `set_right`: X engaged, Y disengaged, LEFT cleared. -/
def set_right (s : IState) : IState :=
  unset_prop (unset_prop (set_prop s DIRECTION_FLAG_X) DIRECTION_FLAG_Y) DIRECTION_FLAG_LEFT

/-- `set_top`: Y engaged, X disengaged, TOP flagged. -/
def set_top (s : IState) : IState :=
  set_prop (set_prop (unset_prop s DIRECTION_FLAG_X) DIRECTION_FLAG_Y) DIRECTION_FLAG_TOP

/-- `set_bottom`: Y engaged, X disengaged, TOP cleared. -/
def set_bottom (s : IState) : IState :=
  unset_prop (set_prop (unset_prop s DIRECTION_FLAG_X) DIRECTION_FLAG_Y) DIRECTION_FLAG_TOP

/-- `is_left` property. -/
def is_left (s : IState) : Bool :=
  is_prop s DIRECTION_FLAG_X ∧ ¬ is_prop s DIRECTION_FLAG_Y ∧ is_prop s DIRECTION_FLAG_LEFT

/-- `is_right` property. -/
def is_right (s : IState) : Bool :=
  is_prop s DIRECTION_FLAG_X ∧ ¬ is_prop s DIRECTION_FLAG_Y ∧ ¬ is_prop s DIRECTION_FLAG_LEFT

/-- `is_top` property. -/
def is_top (s : IState) : Bool :=
  ¬ is_prop s DIRECTION_FLAG_X ∧ is_prop s DIRECTION_FLAG_Y ∧ is_prop s DIRECTION_FLAG_TOP

/-- `is_bottom` property. -/
def is_bottom (s : IState) : Bool :=
  ¬ is_prop s DIRECTION_FLAG_X ∧ is_prop s DIRECTION_FLAG_Y ∧ ¬ is_prop s DIRECTION_FLAG_TOP

/-- `move_right(dx)`. -/
def move_right (s : IState) (dx : Int) : IState :=
  let s := {s with current_x := s.current_x + dx}
  let s := if ¬ is_right s ∨ s.istate ≠ STATE_COMPACT then set_right (iwrite s s.CODE_RIGHT) else s
  if dx ≠ 0 then check_bounds (iwrite s (lhymicro_distance dx.natAbs)) else s

/-- `move_left(dx)`. -/
def move_left (s : IState) (dx : Int) : IState :=
  let s := {s with current_x := s.current_x - (dx.natAbs : Int)}
  let s := if ¬ is_left s ∨ s.istate ≠ STATE_COMPACT then set_left (iwrite s s.CODE_LEFT) else s
  if dx ≠ 0 then check_bounds (iwrite s (lhymicro_distance dx.natAbs)) else s

/-- `move_bottom(dy)`. -/
def move_bottom (s : IState) (dy : Int) : IState :=
  let s := {s with current_y := s.current_y + dy}
  let s := if ¬ is_bottom s ∨ s.istate ≠ STATE_COMPACT then set_bottom (iwrite s s.CODE_BOTTOM) else s
  if dy ≠ 0 then check_bounds (iwrite s (lhymicro_distance dy.natAbs)) else s

/-- `move_top(dy)`. -/
def move_top (s : IState) (dy : Int) : IState :=
  let s := {s with current_y := s.current_y - (dy.natAbs : Int)}
  let s := if ¬ is_top s ∨ s.istate ≠ STATE_COMPACT then set_top (iwrite s s.CODE_TOP) else s
  if dy ≠ 0 then check_bounds (iwrite s (lhymicro_distance dy.natAbs)) else s

/-- `move_x(dx)`: positive goes right, otherwise left. -/
def move_x (s : IState) (dx : Int) : IState :=
  if dx > 0 then move_right s dx else move_left s dx

/-- `move_y(dy)`: positive goes bottom, otherwise top. -/
def move_y (s : IState) (dy : Int) : IState :=
  if dy > 0 then move_bottom s dy else move_top s dy

/-- `move_angle(dx, dy)`: raises `ValueError` unless `|dx| == |dy|`;
engages both axes, emits a horizontal/vertical direction byte only when
the corresponding flag must flip, then `CODE_ANGLE + distance(|dy|)`. -/
def move_angle (s : IState) (dx dy : Int) : Except String IState :=
  if dx.natAbs ≠ dy.natAbs then .error "abs(dx) must equal abs(dy)"
  else
    let s := set_prop (set_prop s DIRECTION_FLAG_X) DIRECTION_FLAG_Y
    let s :=
      if dx > 0 then
        if is_prop s DIRECTION_FLAG_LEFT then
          unset_prop (iwrite s s.CODE_RIGHT) DIRECTION_FLAG_LEFT
        else s
      else
        if ¬ is_prop s DIRECTION_FLAG_LEFT then
          set_prop (iwrite s s.CODE_LEFT) DIRECTION_FLAG_LEFT
        else s
    let s :=
      if dy > 0 then
        if is_prop s DIRECTION_FLAG_TOP then
          unset_prop (iwrite s s.CODE_BOTTOM) DIRECTION_FLAG_TOP
        else s
      else
        if ¬ is_prop s DIRECTION_FLAG_TOP then
          set_prop (iwrite s s.CODE_TOP) DIRECTION_FLAG_TOP
        else s
    let s := {s with current_x := s.current_x + dx, current_y := s.current_y + dy}
    let s := check_bounds s
    .ok (iwrite s (s.CODE_ANGLE ++ lhymicro_distance dy.natAbs))

/-- Modelled from the spec: `ZinglPlotter.plot_line` (module `zinglplotter`
is not under `src/`).  "Bresenham integer line.  Emits every intermediate
integer coordinate between the endpoints, inclusive, in order."  The laser
flag of a bare line plot is consumed as 1 by `group_plots`.  Fuel-based
version of the Zingl-Bresenham loop (as in the source's `move_xy_line`);
`|Δx| + |Δy| + 1` iterations always reach the endpoint. -/
def plotLineAux (x1 y1 sx sy dx dy : Int) : Nat → Int → Int → Int → List Plot
  | 0, _, _, _ => []
  | n + 1, x0, y0, err =>
    (x0, y0, 1) ::
      (if x0 = x1 ∧ y0 = y1 then []
       else
         let e2 := 2 * err
         let ex : Int × Int := if e2 ≥ dy then (err + dy, x0 + sx) else (err, x0)
         let ey : Int × Int := if e2 ≤ dx then (ex.1 + dx, y0 + sy) else (ex.1, y0)
         plotLineAux x1 y1 sx sy dx dy n ex.2 ey.2 ey.1)

/-- Modelled from the spec: `ZinglPlotter.plot_line(x0, y0, x1, y1)`. -/
def plot_line (x0 y0 x1 y1 : Int) : List Plot :=
  let dx : Int := (x1 - x0).natAbs
  let dy : Int := -((y1 - y0).natAbs : Int)
  let sx : Int := if x0 < x1 then 1 else -1
  let sy : Int := if y0 < y1 then 1 else -1
  plotLineAux x1 y1 sx sy dx dy ((x1 - x0).natAbs + (y1 - y0).natAbs + 1) x0 y0 (dx + dy)

/-- The modulation configuration `group_plots` reads off `self`. -/
def IState.groupCfg (s : IState) : GroupCfg :=
  ⟨s.pulse_modulation, s.group_modulation, s.power⟩

/-- `move_relative(dx, dy)` / `move_absolute(x, y)`, with explicit recursion
fuel: the only self-call is the COMPACT branch for a mixed (neither
orthogonal nor diagonal) delta, which re-plans via
`group_plots(plot_line(...))` and recurses through `move_absolute` on
sub-steps that are themselves orthogonal or diagonal, so the source's
recursion depth is at most 2 (`moveFuel`).  The mutation of
`self.pulse_total` inside that re-planning call is not tracked (no claim
exercises the mixed branch).  An unreachable error from the re-planning
`group_plots` or from `move_angle` is propagated. -/
def move_relative : Nat → IState → Int → Int → Except String IState
  | 0, s, _, _ => .ok s
  | fuel + 1, s, dx, dy =>
    if dx = 0 ∧ dy = 0 then .ok s
    else
      let core : Except String IState :=
        if s.istate = STATE_DEFAULT then
          let s := iwrite s [73]
          let s := if dx ≠ 0 then move_x s dx else s
          let s := if dy ≠ 0 then move_y s dy else s
          let s := iwrite s [83, 49, 80, 10]
          .ok (if ¬ s.autolock then iwrite s [73, 83, 50, 80, 10] else s)
        else if s.istate = STATE_COMPACT then
          if dx ≠ 0 ∧ dy ≠ 0 ∧ dx.natAbs ≠ dy.natAbs then
            match group_plots s.groupCfg s.pulse_total s.current_x s.current_y
                (plot_line s.current_x s.current_y (s.current_x + dx) (s.current_y + dy)) with
            | .error e => .error e
            | .ok pts =>
              pts.foldlM (fun s p => move_relative fuel s (p.1 - s.current_x) (p.2.1 - s.current_y)) s
          else if dx.natAbs = dy.natAbs then move_angle s dx dy
          else if dx ≠ 0 then .ok (move_x s dx)
          else .ok (move_y s dy)
        else if s.istate = STATE_CONCAT then
          let s := if dx ≠ 0 then move_x s dx else s
          let s := if dy ≠ 0 then move_y s dy else s
          .ok (iwrite s [78])
        else .ok s
      core.map check_bounds

/-- Recursion depth sufficient for `move_relative` (see its doc comment). -/
def moveFuel : Nat := 2

/-- `move_absolute(x, y)`: relative move towards the target. -/
def move_absolute (s : IState) (x y : Int) : Except String IState :=
  move_relative moveFuel s (x - s.current_x) (y - s.current_y)

/-- Modelled from the spec: the sender-thread lifecycle states
(`THREAD_STATE_*` constants live in `Kernel.py`, which is not under
`src/`); the spec gives `thread_state ∈ {UNSTARTED, STARTED, PAUSED,
FINISHED, ABORT}`. -/
inductive ThreadState where
  | unstarted
  | started
  | paused
  | finished
  | abort
deriving Repr, DecidableEq

/-- `LhystudioController` state: the three byte buffers, the thread state
scalar, the device counters, the last observed `status[1]`, and `sent`,
the log of packet payloads handed to `send_packet` (the wire). -/
structure CState where
  buffer : List Nat
  queue : List Nat
  preempt : List Nat
  state : ThreadState
  packet_count : Nat
  rejected_count : Nat
  status1 : Nat
  sent : List (List Nat)
deriving Repr, DecidableEq

/-- `start()`: aborted controllers stay aborted; finished ones are reset
to unstarted; unstarted ones are started (thread objects themselves are
not modelled). -/
def cstart (s : CState) : CState :=
  if s.state = .abort then s
  else if s.state = .finished then {s with state := .started}
  else if s.state = .unstarted then {s with state := .started}
  else s

/-- `write(bytes)`: append to `queue` (under `queue_lock`), then `start()`. -/
def cwrite (s : CState) (bs : List Nat) : CState :=
  cstart {s with queue := s.queue ++ bs}

/-- `realtime_write(bytes)`: prepend to `preempt` (under `preempt_lock`),
`start()`, and un-pause a paused controller. -/
def realtime_write (s : CState) (bs : List Nat) : CState :=
  let s := cstart {s with preempt := bs ++ s.preempt}
  if s.state = .paused then {s with state := .started} else s

/-- `resume()`: force the thread state to STARTED. -/
def cresume (s : CState) : CState := {s with state := .started}

/-- `pause()`: force the thread state to PAUSED. -/
def cpause (s : CState) : CState := {s with state := .paused}

/-- `abort()`: set the thread state to ABORT and drop `buffer` and
`queue` (the `pipe;buffer 0` signal carries no state). -/
def cabort (s : CState) : CState :=
  {s with state := .abort, buffer := [], queue := []}

/-- Step 1 of `process_queue`: drain `queue` onto the tail of `buffer`. -/
def drainQueue (s : CState) : CState :=
  if s.queue.length ≠ 0 then {s with buffer := s.buffer ++ s.queue, queue := []} else s

/-- Step 2 of `process_queue`: splice `preempt` onto the head of `buffer`. -/
def splicePreempt (s : CState) : CState :=
  if s.preempt.length ≠ 0 then {s with buffer := s.preempt ++ s.buffer, preempt := []} else s

/-- `self.buffer.find(b'\n', 0, 30)`: index of the first newline among the
first 30 bytes, or `none`. -/
def findNewline (l : List Nat) : Option Nat :=
  (l.take 30).findIdx? (· = 10)

/-- Step 3 of `process_queue`: the carved length — up to and including
the first newline in the first 30 bytes, else 30, capped by the buffer
length. -/
def carveLength (buffer : List Nat) : Nat :=
  match findNewline buffer with
  | none => min 30 buffer.length
  | some f => min 30 (min buffer.length (f + 1))

/-- `packet.endswith((b'-', b'*', b'&', b'!'))`. -/
def endsWithDirective (p : List Nat) : Bool :=
  match p.getLast? with
  | some b => b = 45 ∨ b = 42 ∨ b = 38 ∨ b = 33
  | none => false

/-- The deferred `post_send_command` of `process_queue`. -/
inductive PostSend where
  | waitFinishedCmd
  | abortCmd
  | pauseCmd
deriving Repr, DecidableEq

/-- How a `process_queue` run can leave the pure model: `connError` is a
`ConnectionError` raised out of `process_queue` (status word 0 after a
send); `oracleOut` means the supplied status-oracle list was exhausted
(a modelling artifact only — the driver itself never fails here). -/
inductive PQFail where
  | connError
  | oracleOut
deriving Repr, DecidableEq

/-- `wait_until_accepting_packets` against a non-failing driver whose
successive `status[1]` words are the oracle list `ss`.  Returns
`(ok, lastStatus, rest)`: `ok = false` means the loop raised
`ConnectionError` (status word 0); when the thread state is ABORT the
loop body never runs.  `none`: oracle exhausted.  The `abort_waiting`
flag stays false in this model. -/
def waitAccepting (st : ThreadState) (cur : Nat) : List Nat → Option (Bool × Nat × List Nat) :=
  if st = .abort then fun ss => some (true, cur, ss)
  else go
where
  go : List Nat → Option (Bool × Nat × List Nat)
    | [] => none
    | s0 :: rest =>
      if s0 = 0 then some (false, 0, rest)
      else if s0 &&& 0x20 = 0 then some (true, s0, rest)
      else go rest

/-- `wait_finished` against a non-failing driver: polls until the 0x02 bit
clears, counting `STATUS_PACKET_REJECTED` words into `rej`; a status word
0 raises `ConnectionError`, which `process_queue` catches and ignores, so
it is reported the same way.  Returns `(rej, lastStatus, rest)`. -/
def waitFinishedAux : List Nat → Nat → Option (Nat × Nat × List Nat)
  | [], _ => none
  | s0 :: rest, rej =>
    if s0 = 0 then some (rej, 0, rest)
    else
      let rej := if s0 = STATUS_PACKET_REJECTED then rej + 1 else rej
      if s0 &&& 0x02 = 0 then some (rej, s0, rest)
      else waitFinishedAux rest rej

/-- `send_packet(packet)` with a live driver: the 32-byte frame
`0x00 + packet + crc` goes onto the wire; the model logs the 30-byte
payload handed in. -/
def send_packet (s : CState) (packet : List Nat) : CState :=
  {s with sent := s.sent ++ [packet]}

/-- Run the deferred post-send command (`wait_finished` may consume more
status words and count rejections; its `ConnectionError` is caught). -/
def runPostSend (post : Option PostSend) (s : CState) (ss : List Nat) :
    Option (CState × List Nat) :=
  match post with
  | none => some (s, ss)
  | some .abortCmd => some (cabort s, ss)
  | some .pauseCmd => some (cpause s, ss)
  | some .waitFinishedCmd =>
    match waitFinishedAux ss 0 with
    | none => none
    | some (rej, st0, rest) =>
      some ({s with rejected_count := s.rejected_count + rej, status1 := st0}, rest)

/-- `process_queue` from `LhystudiosDevice.py`, against a present,
non-failing driver (`device.mock == False`, `open()` succeeds) whose
successive `status[1]` answers are the oracle `ss`.  Returns the Python
return value, the new controller state and the unconsumed oracle;
`.error .connError` is the `ConnectionError` raised when a post-send
status is 0. -/
def process_queue (s : CState) (ss : List Nat) : Except PQFail (Bool × CState × List Nat) :=
  let s := drainQueue s
  let s := splicePreempt s
  if s.buffer.length = 0 then .ok (false, s, ss)
  else
    let length := carveLength s.buffer
    let packet := s.buffer.take length
    let ext := endsWithDirective packet
    let packet := if ext then packet ++ (s.buffer.drop length).take 1 else packet
    let length := if ext then length + 1 else length
    -- pipe-directive parsing: (stripped packet, deferred command, new state)
    let parsed : List Nat × Option PostSend × ThreadState :=
      if packet.getLast? = some 10 then
        let pk := packet.dropLast
        if pk.getLast? = some 45 then (pk.dropLast, some .waitFinishedCmd, s.state)
        else if pk.getLast? = some 42 then (pk.dropLast, some .abortCmd, s.state)
        else if pk.getLast? = some 38 then (pk.dropLast, none, (cresume s).state)
        else if pk.getLast? = some 33 then (pk.dropLast, some .pauseCmd, s.state)
        else (pk, none, s.state)
      else (packet, none, s.state)
    let packet := if parsed.1 ≠ [] ∧ packet.getLast? = some 10 then
        parsed.1 ++ List.replicate (30 - parsed.1.length) 70
      else parsed.1
    let post := parsed.2.1
    let s := {s with state := parsed.2.2}
    if s.state = .paused then .ok (false, s, ss)
    else if packet.length = 30 then
      match waitAccepting s.state s.status1 ss with
      | none => .error .oracleOut
      | some (false, st0, rest) => .ok (false, {s with status1 := st0}, rest)
      | some (true, st0, rest) =>
        let s := {s with status1 := st0}
        if s.state = .paused then .ok (false, s, rest)
        else
          let s := send_packet s packet
          match rest with
          | [] => .error .oracleOut
          | st1 :: rest2 =>
            let s := {s with status1 := st1}
            if st1 = STATUS_PACKET_REJECTED then
              .ok (false, {s with rejected_count := s.rejected_count + 1}, rest2)
            else if st1 = 0 then .error .connError
            else
              let s := {s with packet_count := s.packet_count + 1,
                               buffer := s.buffer.drop length}
              match runPostSend post s rest2 with
              | none => .error .oracleOut
              | some (s, rest3) => .ok (true, s, rest3)
    else if packet.length ≠ 0 then .ok (false, s, ss)
    else
      let s := {s with buffer := s.buffer.drop length}
      match runPostSend post s ss with
      | none => .error .oracleOut
      | some (s, rest) => .ok (true, s, rest)

/-! ## Distance encoding (claim C6) -/

/-- The tail of a distance token after the `z` prefix, as the claim words
it: empty for remainder 0, the lookup-table code for 1..51, the 3-digit
zero-padded decimal for 52..254. -/
def distTailSpec (r : Nat) : List Nat :=
  if r = 0 then [] else if r ≤ 51 then distance_lookup.getD r [] else threeDigits r

lemma distTail_eq (r : Nat) :
    (if r ≥ 52 then threeDigits r else distance_lookup.getD r []) = distTailSpec r := by
  unfold distTailSpec
  by_cases h52 : r ≥ 52
  · rw [if_pos h52, if_neg (show ¬ r = 0 by omega), if_neg (show ¬ r ≤ 51 by omega)]
  · rw [if_neg h52]
    by_cases h0 : r = 0
    · subst h0; rfl
    · rw [if_neg h0, if_pos (show r ≤ 51 by omega)]

/-- C6 (code bug): the source computes the `z` count as Python 3
`int(v / 255)` — float true-division then truncation — instead of the
spec's `floor(v/255)` (the exact `v %= 255` right next to it shows the
integer intent; under Python 2 the same `/` *was* floor division).  For
`v ≥ 255` the emitted token is `int(v / 255)` copies of `z` followed by
exactly the claim's tail for `v mod 255`; at `v = 255·2^50 + 254` the
double rounds up, the code emits `2^50 + 1` copies of `z` where the claim
prescribes `floor(v/255) = 2^50`, and the encoding differs from the
claimed one.  The spec's seven seed examples are unaffected. -/
theorem lhymicro_distance_py3_div_slip :
    (∀ v : Nat, lhymicro_distance (255 + v) =
      List.replicate (pyIntDivFloat (255 + v) 255) 122 ++
        distTailSpec ((255 + v) % 255)) ∧
    pyIntDivFloat 287104476244869374 255 = 2 ^ 50 + 1 ∧
    287104476244869374 / 255 = 2 ^ 50 ∧
    287104476244869374 % 255 = 254 ∧
    lhymicro_distance 287104476244869374 ≠
      List.replicate (287104476244869374 / 255) 122 ++
        distTailSpec (287104476244869374 % 255) ∧
    lhymicro_distance 0 = [] ∧ lhymicro_distance 25 = [121] ∧
    lhymicro_distance 26 = [124, 97] ∧ lhymicro_distance 51 = [124, 122] ∧
    lhymicro_distance 52 = [48, 53, 50] ∧ lhymicro_distance 255 = [122] ∧
    lhymicro_distance 510 = [122, 122] := by
  refine ⟨fun v => ?_, by decide, by decide, by decide, ?_, by decide, by decide,
    by decide, by decide, by decide, by decide, by decide⟩
  · simp only [lhymicro_distance, if_pos (show 255 + v ≥ 255 by omega)]
    rw [← distTail_eq ((255 + v) % 255),
      ← apply_ite (fun l => List.replicate (pyIntDivFloat (255 + v) 255) 122 ++ l)]
  · intro h
    have hL : (lhymicro_distance 287104476244869374).length =
        pyIntDivFloat 287104476244869374 255 + 3 := by
      show (List.replicate (pyIntDivFloat 287104476244869374 255) 122 ++
        threeDigits (287104476244869374 % 255)).length = _
      rw [List.length_append, List.length_replicate]
      norm_num [threeDigits]
    have hR : (List.replicate (287104476244869374 / 255) 122 ++
        distTailSpec (287104476244869374 % 255)).length =
        287104476244869374 / 255 + 3 := by
      rw [List.length_append, List.length_replicate,
        show (287104476244869374 % 255 : Nat) = 254 from by decide]
      norm_num [distTailSpec, threeDigits]
    have hlen := congrArg List.length h
    rw [hL, hR, show pyIntDivFloat 287104476244869374 255 = 2 ^ 50 + 1 from by decide,
      show (287104476244869374 / 255 : Nat) = 2 ^ 50 from by decide] at hlen
    omega

/-! ## CRC (claim C7) -/

lemma crc_table_getD_lt (i : Nat) : crc_table.getD i 0 < 256 := by
  rcases lt_or_ge i crc_table.length with h | h
  · have hm : crc_table.getD i 0 ∈ crc_table := by
      rw [List.getD_eq_getElem?_getD, List.getElem?_eq_getElem h]
      exact List.getElem_mem h
    have hall : ∀ x ∈ crc_table, x < 256 := by decide
    exact hall _ hm
  · rw [List.getD_eq_getElem?_getD, List.getElem?_eq_none h]
    decide

lemma crcStep_lt (c b : Nat) : crcStep c b < 256 := by
  have h8 : (256 : Nat) = 2 ^ 8 := rfl
  unfold crcStep
  rw [h8]
  exact Nat.xor_lt_two_pow (h8 ▸ crc_table_getD_lt _) (h8 ▸ crc_table_getD_lt _)

lemma crc_fold_take (line : List Nat) (n : Nat) (hn : n ≤ 30) (a : Nat) :
    (List.range n).foldl (fun c i => crcStep c ((line.take 30).getD i 0)) a =
      (List.range n).foldl (fun c i => crcStep c (line.getD i 0)) a := by
  induction n generalizing a with
  | zero => rfl
  | succ n ih =>
    rw [List.range_succ]
    simp only [List.foldl_append, List.foldl_cons, List.foldl_nil]
    rw [ih (by omega)]
    congr 1
    rw [List.getD_eq_getElem?_getD, List.getD_eq_getElem?_getD,
      List.getElem?_take_of_lt (by omega)]

lemma onewire_crc_lookup_lt (line : List Nat) : onewire_crc_lookup line < 256 := by
  unfold onewire_crc_lookup
  rw [show (30 : Nat) = 29 + 1 from rfl, List.range_succ]
  simp only [List.foldl_append, List.foldl_cons, List.foldl_nil]
  exact crcStep_lt _ _

/-- C7: for a line of at least 30 bytes, `onewire_crc_lookup` depends only
on the first 30 bytes (it equals the CRC of `line.take 30`) and its result
lies in `[0, 255]`. -/
theorem onewire_crc_lookup_spec (line : List Nat) (_h : 30 ≤ line.length) :
    onewire_crc_lookup line = onewire_crc_lookup (line.take 30) ∧
      onewire_crc_lookup line ≤ 255 := by
  constructor
  · unfold onewire_crc_lookup
    exact (crc_fold_take line 30 le_rfl 0).symm
  · have := onewire_crc_lookup_lt line
    omega

/-- Witness for C7 at a concrete 31-byte line. -/
theorem onewire_crc_lookup_spec_witness :
    onewire_crc_lookup (List.replicate 30 70 ++ [1]) =
        onewire_crc_lookup ((List.replicate 30 70 ++ [1]).take 30) ∧
      onewire_crc_lookup (List.replicate 30 70 ++ [1]) ≤ 255 :=
  onewire_crc_lookup_spec (List.replicate 30 70 ++ [1]) (by decide)

/-! ## Controller frame effects (claims C8, C10) -/

/-- C8: `abort()` sets the thread state to ABORT and empties `buffer` and
`queue`; every other controller field — in particular `preempt` — is left
unchanged (the record update below touches nothing else). -/
theorem cabort_spec (s : CState) :
    cabort s = {s with state := .abort, buffer := [], queue := []} ∧
      (cabort s).preempt = s.preempt ∧
      (cabort s).packet_count = s.packet_count ∧
      (cabort s).rejected_count = s.rejected_count ∧
      (cabort s).status1 = s.status1 ∧ (cabort s).sent = s.sent :=
  ⟨rfl, rfl, rfl, rfl, rfl, rfl⟩

lemma cstart_fields (s : CState) : (cstart s).buffer = s.buffer ∧
    (cstart s).queue = s.queue ∧ (cstart s).preempt = s.preempt := by
  unfold cstart
  split_ifs <;> exact ⟨rfl, rfl, rfl⟩

lemma realtime_write_fields (s : CState) (bs : List Nat) :
    (realtime_write s bs).preempt = bs ++ s.preempt ∧
      (realtime_write s bs).buffer = s.buffer ∧
      (realtime_write s bs).queue = s.queue := by
  obtain ⟨h1, h2, h3⟩ := cstart_fields {s with preempt := bs ++ s.preempt}
  simp only [realtime_write]
  split_ifs <;> exact ⟨h3, h1, h2⟩

lemma drainQueue_fields (s : CState) : (drainQueue s).buffer = s.buffer ++ s.queue ∧
    (drainQueue s).preempt = s.preempt := by
  unfold drainQueue
  split_ifs with h
  · exact ⟨rfl, rfl⟩
  · simp only [List.length_eq_zero, not_not] at h
    rw [h]
    simp

lemma splicePreempt_buffer (s : CState) :
    (splicePreempt s).buffer = s.preempt ++ s.buffer := by
  unfold splicePreempt
  split_ifs with h
  · rfl
  · simp only [List.length_eq_zero, not_not] at h
    rw [h, List.nil_append]

/-- C10: two successive `realtime_write` calls leave `preempt = B + A`
(reverse call order), and the sender's preempt splice then puts `B`'s
bytes at the very head of the carved buffer, ahead of `A`'s and of all
previously queued content. -/
theorem realtime_write_reverse_order (s : CState) (A B : List Nat) :
    (realtime_write (realtime_write s A) B).preempt = B ++ A ++ s.preempt ∧
      (splicePreempt (drainQueue (realtime_write (realtime_write s A) B))).buffer =
        (B ++ A ++ s.preempt) ++ (s.buffer ++ s.queue) := by
  obtain ⟨ha1, ha2, ha3⟩ := realtime_write_fields s A
  obtain ⟨hb1, hb2, hb3⟩ := realtime_write_fields (realtime_write s A) B
  have hpre : (realtime_write (realtime_write s A) B).preempt = B ++ A ++ s.preempt := by
    rw [hb1, ha1, List.append_assoc]
  refine ⟨hpre, ?_⟩
  obtain ⟨hd1, hd2⟩ := drainQueue_fields (realtime_write (realtime_write s A) B)
  rw [splicePreempt_buffer, hd1, hd2, hpre, hb2, hb3, ha2, ha3]

/-! ## COMPACT diagonal move (claim C1) -/

/-- The interpreter state of the C1 scenario: COMPACT mode at `(0, 0)`
with `properties == 0`, the default (no swap/flip) direction codes, and
an empty pipe. -/
def compactStart : IState :=
  { istate := STATE_COMPACT, properties := 0, is_relative := false, is_on := false,
    CODE_RIGHT := [66], CODE_LEFT := [84], CODE_TOP := [76], CODE_BOTTOM := [82],
    CODE_ANGLE := [77], CODE_ON := [68], CODE_OFF := [85],
    current_x := 0, current_y := 0, min_x := 0, min_y := 0, max_x := 0, max_y := 0,
    autolock := true, pulse_total := 0, pulse_modulation := true,
    group_modulation := false, power := 1000, pipe := [] }

/-- The state `move_absolute(5, 5)` actually produces from `compactStart`:
only `b"M" + lhymicro_distance(5)` is written (no direction bytes), both
axis flags are engaged, and the position advances to `(5, 5)`. -/
def compactAfter : IState :=
  { compactStart with properties := 12, current_x := 5, current_y := 5,
                      max_x := 5, max_y := 5, pipe := [77, 101] }

/-- C1 counterexample: in COMPACT at `(0,0)` with `properties == 0`,
`move_absolute(5, 5)` does *not* write
`CODE_BOTTOM + CODE_RIGHT + b"M" + lhymicro_distance(5)` to the pipe. -/
theorem compact_diagonal_counterexample :
    ¬ (move_absolute compactStart 5 5).map IState.pipe =
        Except.ok ([82] ++ [66] ++ [77] ++ lhymicro_distance 5) := by
  decide

/-- C1 amended: in COMPACT at `(0,0)` with `properties == 0`,
`move_absolute(5, 5)` writes exactly `b"M" + lhymicro_distance(5)`:
`move_angle` emits a direction byte only when the LEFT/TOP flag must
flip, and with `properties == 0` both already denote right/bottom. -/
theorem compact_diagonal_emits_angle_only :
    move_absolute compactStart 5 5 = Except.ok compactAfter ∧
      compactAfter.pipe = [77] ++ lhymicro_distance 5 ∧
      compactAfter.properties = DIRECTION_FLAG_X ||| DIRECTION_FLAG_Y := by
  refine ⟨?_, by decide, by decide⟩
  decide

/-! ## Packetiser scenarios (claims C3, C4, C5) -/

lemma carveLength_newline_at_6 (l : List Nat) :
    carveLength (73 :: 66 :: 97 :: 83 :: 49 :: 80 :: 10 :: l) = 7 := by
  simp [carveLength, findNewline, List.findIdx?_cons]

lemma carveLength_pause_directive (l : List Nat) : carveLength (33 :: 10 :: l) = 2 := by
  simp [carveLength, findNewline, List.findIdx?_cons]

lemma carveLength_resume_directive (l : List Nat) : carveLength (38 :: 10 :: l) = 2 := by
  simp [carveLength, findNewline, List.findIdx?_cons]

/-- C4: `&` is acted on *before* the paused check: a PAUSED controller
whose buffer head is the resume directive `b"&\n"` consumes it, switches
to STARTED and returns true instead of returning unsent. -/
theorem resume_directive_unblocks_paused (rest ss : List Nat) (s : CState)
    (hst : s.state = .paused) (hq : s.queue = []) (hpre : s.preempt = [])
    (hb : s.buffer = 38 :: 10 :: rest) :
    process_queue s ss = .ok (true, {s with state := .started, buffer := rest}, ss) := by
  obtain ⟨buf, q, pre, st, pc, rc, st1, snt⟩ := s
  simp only at hst hq hpre hb
  subst hst hq hpre hb
  simp [process_queue, drainQueue, splicePreempt, carveLength_resume_directive,
    endsWithDirective, cresume, runPostSend]

/-- Witness for C4: a concrete paused controller with `b"&\nI"` pending. -/
theorem resume_directive_unblocks_paused_witness :
    process_queue ⟨[38, 10, 73], [], [], .paused, 0, 0, 0, []⟩ [206] =
      .ok (true, ⟨[73], [], [], .started, 0, 0, 0, []⟩, [206]) :=
  resume_directive_unblocks_paused [73] [206] ⟨[38, 10, 73], [], [], .paused, 0, 0, 0, []⟩
    rfl rfl rfl rfl

set_option maxHeartbeats 1000000 in
/-- C5: with `b"IBaS1P\n!\n" + rest` pending, the first `process_queue`
iteration transmits the single 30-byte packet `b"IBaS1P" + b"F"*24` and
advances past the payload; the second consumes the `!` directive without
transmitting, leaves the controller PAUSED, and advances past it. -/
theorem pause_directive_packetisation (rest ss : List Nat) (s : CState)
    (hst : s.state = .started) (hq : s.queue = []) (hpre : s.preempt = [])
    (hb : s.buffer = 73 :: 66 :: 97 :: 83 :: 49 :: 80 :: 10 :: 33 :: 10 :: rest) :
    process_queue s (206 :: 206 :: ss) =
      .ok (true,
        { s with
            status1 := 206,
            packet_count := s.packet_count + 1,
            sent := s.sent ++ [[73, 66, 97, 83, 49, 80] ++ List.replicate 24 70],
            buffer := 33 :: 10 :: rest },
        ss) ∧
    process_queue
        { s with
            status1 := 206,
            packet_count := s.packet_count + 1,
            sent := s.sent ++ [[73, 66, 97, 83, 49, 80] ++ List.replicate 24 70],
            buffer := 33 :: 10 :: rest } ss =
      .ok (true,
        { s with
            status1 := 206,
            packet_count := s.packet_count + 1,
            sent := s.sent ++ [[73, 66, 97, 83, 49, 80] ++ List.replicate 24 70],
            buffer := rest,
            state := .paused },
        ss) := by
  obtain ⟨buf, q, pre, st, pc, rc, st1, snt⟩ := s
  simp only at hst hq hpre hb
  subst hst hq hpre hb
  constructor
  · simp [process_queue, drainQueue, splicePreempt, carveLength_newline_at_6,
      endsWithDirective, waitAccepting, waitAccepting.go, runPostSend, send_packet,
      STATUS_PACKET_REJECTED, List.replicate, show 206 &&& 32 = 0 from by decide]
  · simp [process_queue, drainQueue, splicePreempt, carveLength_pause_directive,
      endsWithDirective, runPostSend, cpause]

/-- Witness for C5: the concrete buffer `b"IBaS1P\n!\n"` with OK statuses. -/
theorem pause_directive_packetisation_witness :
    process_queue ⟨[73, 66, 97, 83, 49, 80, 10, 33, 10], [], [], .started, 0, 0, 0, []⟩
        [206, 206] =
      .ok (true,
        ⟨[33, 10], [], [], .started, 1, 0, 206,
          [[73, 66, 97, 83, 49, 80] ++ List.replicate 24 70]⟩, []) ∧
    process_queue
        ⟨[33, 10], [], [], .started, 1, 0, 206,
          [[73, 66, 97, 83, 49, 80] ++ List.replicate 24 70]⟩ [] =
      .ok (true,
        ⟨[], [], [], .paused, 1, 0, 206,
          [[73, 66, 97, 83, 49, 80] ++ List.replicate 24 70]⟩, []) :=
  pause_directive_packetisation [] []
    ⟨[73, 66, 97, 83, 49, 80, 10, 33, 10], [], [], .started, 0, 0, 0, []⟩ rfl rfl rfl rfl

/-- The C3 scenario's start state: 35 pending `B` bytes (one full 30-byte
packet plus 5 more), STARTED, zero counters. -/
def c3start : CState :=
  { buffer := List.replicate 35 66, queue := [], preempt := [], state := .started,
    packet_count := 0, rejected_count := 0, status1 := 0, sent := [] }

/-- After the rejected first iteration: buffer untouched, one rejection
counted, no packet counted, the 30-byte packet on the wire once. -/
def c3mid : CState :=
  { c3start with rejected_count := 1, status1 := 207, sent := [List.replicate 30 66] }

/-- After the successful retry: buffer advanced by exactly the 30-byte
packet length, `packet_count == 1`, `rejected_count == 1`. -/
def c3fin : CState :=
  { c3mid with buffer := List.replicate 5 66, packet_count := 1, status1 := 206,
               sent := [List.replicate 30 66, List.replicate 30 66] }

/-- C3: when a sent 30-byte packet is answered with
`STATUS_PACKET_REJECTED` (207), `process_queue` adds exactly one to
`rejected_count`, leaves `packet_count` and `buffer` untouched (the
record update names nothing else) and returns false; consequently, in the
mocked 207-then-206 scenario, two calls advance the buffer by exactly one
packet length with `rejected_count == 1` and `packet_count == 1`. -/
theorem packet_rejected_retry (p rest ss : List Nat) (w : Nat) (s : CState)
    (hst : s.state = .started) (hq : s.queue = []) (hpre : s.preempt = [])
    (hb : s.buffer = p ++ rest) (hlen : p.length = 30) (hnl : ¬ 10 ∈ p)
    (hdir : endsWithDirective p = false) (hw0 : w ≠ 0) (hw : w &&& 0x20 = 0) :
    process_queue s (w :: 207 :: ss) =
      .ok (false,
        { s with
            status1 := 207,
            sent := s.sent ++ [p],
            rejected_count := s.rejected_count + 1 },
        ss) ∧
    process_queue c3start [206, 207, 206, 206] = .ok (false, c3mid, [206, 206]) ∧
    process_queue c3mid [206, 206] = .ok (true, c3fin, []) := by
  refine ⟨?_, by decide, by decide⟩
  obtain ⟨buf, q, pre, st, pc, rc, st1, snt⟩ := s
  simp only at hst hq hpre hb
  subst hst hq hpre hb
  have htake : (p ++ rest).take 30 = p := by
    rw [← hlen]; exact List.take_left p rest
  have hfind : findNewline (p ++ rest) = none := by
    rw [findNewline, htake]
    simp only [List.findIdx?_eq_none_iff]
    intro x hx
    simp only [decide_eq_false_iff_not]
    intro h
    subst h
    exact hnl hx
  have hcarve : carveLength (p ++ rest) = 30 := by
    simp [carveLength, hfind, List.length_append, hlen]
  have hdrop : (p ++ rest).drop 30 = rest := by
    rw [← hlen]; exact List.drop_left p rest
  have hlast : ¬ p.getLast? = some 10 := by
    intro h
    exact hnl (List.mem_of_getLast?_eq_some h)
  simp [process_queue, drainQueue, splicePreempt, hcarve, htake, hdrop, hdir, hlast,
    hlen, waitAccepting, waitAccepting.go, hw0, hw, send_packet, STATUS_PACKET_REJECTED,
    runPostSend]

/-- Witness for C3: the 35-`B` buffer with an accepting then rejecting
status word. -/
theorem packet_rejected_retry_witness :
    process_queue c3start [206, 207] = .ok (false, c3mid, []) ∧
    process_queue c3start [206, 207, 206, 206] = .ok (false, c3mid, [206, 206]) ∧
    process_queue c3mid [206, 206] = .ok (true, c3fin, []) :=
  packet_rejected_retry (List.replicate 30 66) (List.replicate 5 66) [] 206 c3start
    rfl rfl rfl rfl rfl (by decide) rfl (by decide) rfl

/-! ## group_plots safety (claim C9) -/

/-- A plot event within one unit, per axis, of the previous one (the `on`
component is irrelevant to validity). -/
def unitStepOk (p q : Plot) : Prop :=
  (q.1 - p.1).natAbs ≤ 1 ∧ (q.2.1 - p.2.1).natAbs ≤ 1

lemma unitStepOk_mk (lx ly x y : Int) (lon po : Nat) :
    unitStepOk (lx, ly, lon) (x, y, po) ↔
      ((x - lx).natAbs ≤ 1 ∧ (y - ly).natAbs ≤ 1) := Iff.rfl

/-- Every consumed event lies at most one unit (per axis) from the
previous position, the start position for the first event. -/
def withinUnitSteps (start_x start_y : Int) (evs : List Plot) : Prop :=
  List.Chain unitStepOk (start_x, start_y, 0) evs

lemma chain_unitStepOk_on (x y : Int) (o o' : Nat) (l : List Plot) :
    List.Chain unitStepOk (x, y, o) l ↔ List.Chain unitStepOk (x, y, o') l := by
  cases l with
  | nil => constructor <;> (intro; exact List.Chain.nil)
  | cons b l =>
    rw [List.chain_cons, List.chain_cons]
    exact Iff.rfl

lemma exists_ok_map {α β ε : Type} (f : α → β) (e : Except ε α) :
    (∃ b, e.map f = .ok b) ↔ ∃ a, e = .ok a := by
  cases e <;> simp [Except.map]

lemma groupPlotsAux_ok_iff (cfg : GroupCfg) (evs : List Plot) :
    ∀ (lx ly : Int) (lon : Nat) (dx dy : Int) (pt : ℚ),
      dx.natAbs ≤ 1 → dy.natAbs ≤ 1 →
      ((∃ out, groupPlotsAux cfg lx ly lon dx dy pt evs = .ok out) ↔
        List.Chain unitStepOk (lx, ly, lon) evs) := by
  induction evs with
  | nil =>
    intro lx ly lon dx dy pt _ _
    constructor
    · intro _; exact List.Chain.nil
    · intro _; exact ⟨_, rfl⟩
  | cons e rest ih =>
    obtain ⟨x, y, po⟩ := e
    intro lx ly lon dx dy pt hdx hdy
    simp only [groupPlotsAux]
    by_cases hcont : x = lx + dx ∧ y = ly + dy ∧ (computeOn cfg pt lon po).1 = lon
    · rw [if_pos hcont]
      rw [ih x y lon dx dy (computeOn cfg pt lon po).2 hdx hdy, List.chain_cons]
      obtain ⟨hcx, hcy, hco⟩ := hcont
      constructor
      · intro hch
        exact ⟨(unitStepOk_mk lx ly x y lon po).mpr ⟨by omega, by omega⟩,
          (chain_unitStepOk_on x y lon po rest).mp hch⟩
      · intro hch
        exact (chain_unitStepOk_on x y po lon rest).mp hch.2
    · rw [if_neg hcont]
      by_cases hbig : (x - lx).natAbs > 1 ∨ (y - ly).natAbs > 1
      · rw [if_pos hbig]
        constructor
        · intro h
          obtain ⟨out, h⟩ := h
          exact absurd h (by simp)
        · intro hch
          rw [List.chain_cons] at hch
          obtain ⟨h12, _⟩ := hch
          rw [unitStepOk_mk] at h12
          omega
      · rw [if_neg hbig]
        rw [exists_ok_map, ih x y (computeOn cfg pt lon po).1 (x - lx) (y - ly)
          (computeOn cfg pt lon po).2 (by omega) (by omega), List.chain_cons]
        constructor
        · intro hch
          exact ⟨(unitStepOk_mk lx ly x y lon po).mpr ⟨by omega, by omega⟩,
            (chain_unitStepOk_on x y _ po rest).mp hch⟩
        · intro hch
          exact (chain_unitStepOk_on x y po _ rest).mp hch.2

lemma except_error_iff_not_ok {α : Type} (e : Except String α) :
    (∃ msg, e = .error msg) ↔ ¬ ∃ a, e = .ok a := by
  cases e <;> simp

/-- C9: `group_plots` completes (yields its full grouped output) exactly
when every consumed event is at most one unit from the previous position
in both axes, and raises `ValueError` exactly when some event violates
that — for any modulation configuration and start position. -/
theorem group_plots_error_iff_nonunit (cfg : GroupCfg) (pt : ℚ) (sx sy : Int)
    (evs : List Plot) :
    ((∃ out, group_plots cfg pt sx sy evs = .ok out) ↔ withinUnitSteps sx sy evs) ∧
      ((∃ msg, group_plots cfg pt sx sy evs = .error msg) ↔
        ¬ withinUnitSteps sx sy evs) := by
  have h := groupPlotsAux_ok_iff cfg evs sx sy 0 0 0 pt (by decide) (by decide)
  refine ⟨h, ?_⟩
  rw [except_error_iff_not_ok]
  exact not_congr h

/-! ## group/ungroup round trip (claim C2) -/

/-- A valid step for the round-trip statement: at most one unit per axis
and a nonzero move. -/
def moveStepOk (p q : Plot) : Prop :=
  (p.1 ≠ q.1 ∨ p.2.1 ≠ q.2.1) ∧ (q.1 - p.1).natAbs ≤ 1 ∧ (q.2.1 - p.2.1).natAbs ≤ 1

lemma moveStepOk_mk (lx ly x y : Int) (lon po : Nat) :
    moveStepOk (lx, ly, lon) (x, y, po) ↔
      ((lx ≠ x ∨ ly ≠ y) ∧ (x - lx).natAbs ≤ 1 ∧ (y - ly).natAbs ≤ 1) := Iff.rfl

/-- A single-step sequence from the given start: every event moves by a
nonzero amount of at most one unit per axis. -/
def validMoveSteps (start_x start_y : Int) (evs : List Plot) : Prop :=
  List.Chain moveStepOk (start_x, start_y, 0) evs

/-- C2 counterexample: with the interpreter's initial modulation state
(`pulse_modulation = True`, `group_modulation = False`, `power = 1000`,
`pulse_total = 0`), the round trip of the single-step sequence
`S = [(1, 0, 1)]` from start `(0, 0)` yields `[(0, 0, 0), (1, 0, 1)]` —
the grouper prepends the start point — and not `S`. -/
theorem group_ungroup_roundtrip_counterexample :
    (group_plots ⟨true, false, 1000⟩ 0 0 0 [(1, 0, 1)]).bind ungroup_plots =
        .ok [(0, 0, 0), (1, 0, 1)] ∧
      ¬ (group_plots ⟨true, false, 1000⟩ 0 0 0 [(1, 0, 1)]).bind ungroup_plots =
          .ok [(1, 0, 1)] := by
  have hq : computeOn ⟨true, false, 1000⟩ (0 : ℚ) 0 1 = (1, 0) := by
    simp [computeOn]
  have hmain : (group_plots ⟨true, false, 1000⟩ 0 0 0 [(1, 0, 1)]).bind ungroup_plots =
      .ok [(0, 0, 0), (1, 0, 1)] := by
    simp [group_plots, groupPlotsAux, hq, ungroup_plots, ungroupAux, pySign, unitSteps,
      Except.bind, Except.map]
  exact ⟨hmain, by rw [hmain]; simp⟩

lemma unitSteps_one (cx cy dx dy : Int) (o : Nat) :
    unitSteps cx cy dx dy o 1 = [(cx + dx, cy + dy, o)] := rfl

lemma unitSteps_snoc (cx cy dx dy : Int) (o : Nat) (n : Nat) :
    unitSteps cx cy dx dy o (n + 1) =
      unitSteps cx cy dx dy o n ++
        [(cx + ((n : Int) + 1) * dx, cy + ((n : Int) + 1) * dy, o)] := by
  induction n generalizing cx cy with
  | zero =>
    rw [unitSteps_one]
    show _ = [] ++ [(cx + (0 + 1) * dx, cy + (0 + 1) * dy, o)]
    rw [List.nil_append]
    norm_num
  | succ n ih =>
    have e1 : cx + dx + ((n : Int) + 1) * dx = cx + (((n + 1 : Nat) : Int) + 1) * dx := by
      push_cast; ring
    have e2 : cy + dy + ((n : Int) + 1) * dy = cy + (((n + 1 : Nat) : Int) + 1) * dy := by
      push_cast; ring
    calc unitSteps cx cy dx dy o (n + 1 + 1)
        = (cx + dx, cy + dy, o) :: unitSteps (cx + dx) (cy + dy) dx dy o (n + 1) := rfl
      _ = (cx + dx, cy + dy, o) :: (unitSteps (cx + dx) (cy + dy) dx dy o n ++
            [(cx + dx + ((n : Int) + 1) * dx, cy + dy + ((n : Int) + 1) * dy, o)]) := by
            rw [ih]
      _ = unitSteps cx cy dx dy o (n + 1) ++
            [(cx + (((n + 1 : Nat) : Int) + 1) * dx,
              cy + (((n + 1 : Nat) : Int) + 1) * dy, o)] := by
            rw [e1, e2]
            rfl

lemma pySign_ms (c d : Int) (m : Nat) (hm : 1 ≤ m) (hd : d.natAbs ≤ 1) :
    pySign c (c - m * d) = d := by
  have hd3 : d = -1 ∨ d = 0 ∨ d = 1 := by omega
  rcases hd3 with h | h | h <;> subst h <;> unfold pySign
  · rw [if_neg (by omega), if_pos (by omega)]
  · rw [if_neg (by omega), if_neg (by omega)]
  · rw [if_pos (by omega)]

lemma max_natAbs_ms (dx dy : Int) (m : Nat) (hnz : ¬(dx = 0 ∧ dy = 0))
    (hdx : dx.natAbs ≤ 1) (hdy : dy.natAbs ≤ 1) :
    max ((m : Int) * dx).natAbs ((m : Int) * dy).natAbs = m := by
  rw [Int.natAbs_mul, Int.natAbs_mul, Int.natAbs_ofNat]
  have hx : dx.natAbs = 0 ∨ dx.natAbs = 1 := by omega
  have hy : dy.natAbs = 0 ∨ dy.natAbs = 1 := by omega
  rcases hx with h1 | h1 <;> rcases hy with h2 | h2
  · exact absurd ⟨by omega, by omega⟩ hnz
  · rw [h1, h2]; simp
  · rw [h1, h2]; simp
  · rw [h1, h2]; simp

/-- The first recursive step of `ungroupAux` from a point `m` unit-steps
behind `(lx, ly)` in direction `(dx, dy)`: the diagonal check passes and
the while loop walks exactly those `m` steps. -/
lemma ungroupAux_walk (lx ly dx dy : Int) (lon : Nat) (m : Nat) (hm : 1 ≤ m)
    (hnz : ¬(dx = 0 ∧ dy = 0)) (hdx : dx.natAbs ≤ 1) (hdy : dy.natAbs ≤ 1)
    (tail : List Plot) :
    ungroupAux (lx - m * dx) (ly - m * dy) ((lx, ly, lon) :: tail) =
      (ungroupAux lx ly tail).map
        (fun out => unitSteps (lx - m * dx) (ly - m * dy) dx dy lon m ++ out) := by
  have hsx : lx - (lx - (m : Int) * dx) = (m : Int) * dx := sub_sub_cancel _ _
  have hsy : ly - (ly - (m : Int) * dy) = (m : Int) * dy := sub_sub_cancel _ _
  simp only [ungroupAux]
  rw [pySign_ms lx dx m hm hdx, pySign_ms ly dy m hm hdy, hsx, hsy,
    if_neg (show ¬ (m : Int) * dy * dx ≠ (m : Int) * dx * dy by push_neg; ring),
    max_natAbs_ms dx dy m hnz hdx hdy]

lemma group_ungroup_aux (cfg : GroupCfg) (hmod : cfg.pulse_modulation = false) :
    ∀ (evs : List Plot) (lx ly : Int) (lon : Nat) (dx dy : Int) (pt : ℚ) (m : Nat),
      1 ≤ m → ¬(dx = 0 ∧ dy = 0) → dx.natAbs ≤ 1 → dy.natAbs ≤ 1 →
      List.Chain moveStepOk (lx, ly, lon) evs →
      ∃ gs, groupPlotsAux cfg lx ly lon dx dy pt evs = .ok gs ∧
        ungroupAux (lx - m * dx) (ly - m * dy) gs =
          .ok (unitSteps (lx - m * dx) (ly - m * dy) dx dy lon m ++ evs) := by
  intro evs
  induction evs with
  | nil =>
    intro lx ly lon dx dy pt m hm hnz hdx hdy _
    refine ⟨[(lx, ly, lon)], rfl, ?_⟩
    rw [ungroupAux_walk lx ly dx dy lon m hm hnz hdx hdy []]
    rfl
  | cons e rest ih =>
    obtain ⟨x, y, po⟩ := e
    intro lx ly lon dx dy pt m hm hnz hdx hdy hch
    rw [List.chain_cons] at hch
    obtain ⟨hstep, htail⟩ := hch
    rw [moveStepOk_mk] at hstep
    obtain ⟨hne, hbx, hby⟩ := hstep
    have hq : computeOn cfg pt lon po = (po, pt) := by
      simp [computeOn, hmod]
    simp only [groupPlotsAux, hq]
    by_cases hcont : x = lx + dx ∧ y = ly + dy ∧ po = lon
    · obtain ⟨hcx, hcy, hco⟩ := hcont
      rw [if_pos ⟨hcx, hcy, hco⟩]
      subst hco
      obtain ⟨gs, hgs, hung⟩ :=
        ih x y po dx dy pt (m + 1) (by omega) hnz hdx hdy htail
      refine ⟨gs, hgs, ?_⟩
      have hpmx : x - ((m : Int) + 1) * dx = lx - m * dx := by
        rw [hcx]; ring
      have hpmy : y - ((m : Int) + 1) * dy = ly - m * dy := by
        rw [hcy]; ring
      rw [show ((m + 1 : Nat) : Int) = (m : Int) + 1 from by push_cast; ring] at hung
      rw [hpmx, hpmy] at hung
      rw [hung]
      congr 1
      rw [unitSteps_snoc]
      rw [List.append_assoc]
      congr 2
      rw [List.singleton_append]
      congr 2
      · rw [hcx]; ring
      · rw [hcy]; ring
    · rw [if_neg hcont]
      rw [if_neg (show ¬((x - lx).natAbs > 1 ∨ (y - ly).natAbs > 1) by omega)]
      have hnz2 : ¬(x - lx = 0 ∧ y - ly = 0) := by omega
      obtain ⟨gs, hgs, hung⟩ :=
        ih x y po (x - lx) (y - ly) pt 1 le_rfl hnz2 (by omega) (by omega) htail
      refine ⟨(lx, ly, lon) :: gs, by rw [hgs]; rfl, ?_⟩
      rw [ungroupAux_walk lx ly dx dy lon m hm hnz hdx hdy gs]
      have hx1 : x - (1 : Nat) * (x - lx) = lx := by push_cast; ring
      have hy1 : y - (1 : Nat) * (y - ly) = ly := by push_cast; ring
      rw [hx1, hy1] at hung
      rw [hung]
      show Except.ok _ = _
      congr 1
      rw [unitSteps_one] at hung ⊢
      congr 1
      rw [List.singleton_append]
      congr 2
      · ring
      · ring

/-- C2 amended: with pulse modulation disabled, for every single-step
sequence `S` whose consecutive points each move by a nonzero amount of at
most one unit per axis, the round trip prepends the start point:
`ungroup_plots(group_plots(sx, sy, S)) = (sx, sy, 0) :: S`. -/
theorem group_ungroup_roundtrip_amended (cfg : GroupCfg) (pt : ℚ) (sx sy : Int)
    (evs : List Plot) (hmod : cfg.pulse_modulation = false)
    (hch : validMoveSteps sx sy evs) :
    (group_plots cfg pt sx sy evs).bind ungroup_plots = .ok ((sx, sy, 0) :: evs) := by
  cases evs with
  | nil =>
    simp [group_plots, groupPlotsAux, ungroup_plots, ungroupAux, Except.bind, Except.map]
  | cons e rest =>
    obtain ⟨x, y, po⟩ := e
    rw [validMoveSteps, List.chain_cons] at hch
    obtain ⟨hstep, htail⟩ := hch
    rw [moveStepOk_mk] at hstep
    obtain ⟨hne, hbx, hby⟩ := hstep
    have hq : computeOn cfg pt 0 po = (po, pt) := by simp [computeOn, hmod]
    have hnz : ¬(x - sx = 0 ∧ y - sy = 0) := by omega
    obtain ⟨gs, hgs, hung⟩ := group_ungroup_aux cfg hmod rest x y po
      (x - sx) (y - sy) pt 1 le_rfl hnz (by omega) (by omega) htail
    simp only [group_plots, groupPlotsAux, hq]
    rw [if_neg (show ¬(x = sx + 0 ∧ y = sy + 0 ∧ po = 0) by omega),
      if_neg (show ¬((x - sx).natAbs > 1 ∨ (y - sy).natAbs > 1) by omega)]
    rw [hgs]
    have hx1 : x - (1 : Nat) * (x - sx) = sx := by push_cast; ring
    have hy1 : y - (1 : Nat) * (y - sy) = sy := by push_cast; ring
    rw [hx1, hy1] at hung
    show ((Except.ok ((sx, sy, 0) :: gs) : Except String (List Plot)).bind ungroup_plots) =
      _
    show ungroup_plots ((sx, sy, 0) :: gs) = _
    simp only [ungroup_plots]
    rw [hung]
    rw [unitSteps_one]
    show Except.ok _ = _
    congr 2
    rw [List.singleton_append]
    congr 2
    · ring
    · ring

/-- Witness for C2 (amended): `S = [(1, 0, 1)]` from `(0, 0)` with
modulation off. -/
theorem group_ungroup_roundtrip_amended_witness :
    (group_plots ⟨false, false, 1000⟩ 0 0 0 [(1, 0, 1)]).bind ungroup_plots =
      .ok [(0, 0, 0), (1, 0, 1)] :=
  group_ungroup_roundtrip_amended ⟨false, false, 1000⟩ 0 0 0 [(1, 0, 1)] rfl
    (List.chain_cons.mpr ⟨by rw [moveStepOk_mk]; omega, List.Chain.nil⟩)

end Lhystudios
